import Mathlib

/-!
Shallow embedding of `src/sketch.ino` (ESP32 key-matrix scanner).

The sketch drives one column of an 8x9 key matrix at a time through a
74HC595 shift register, samples the nine row input pins while that column
is active, stores the samples in `matrix[col][row]`, and once per second
prints the matrix over the serial port.

The embedding has three layers:
  * a pin-event model of the shift-register driver
    (`clearAllColumns` / `activateColumn`, via Arduino `shiftOut`);
  * a call-level trace of one sweep of `loop`'s scan phase, interpreted by
    a small state machine over the latched shift-register output and the
    `matrix` table;
  * a functional model of one whole `loop` iteration including the
    1-second report gate, with `unsigned long` arithmetic taken modulo
    2^32.
-/

namespace EspKeyboard

/-- `const int datapin = 18;` -/
def datapin : Nat := 18

/-- `const int latchpin = 19;` -/
def latchpin : Nat := 19

/-- `const int clockpin = 17;` -/
def clockpin : Nat := 17

/-- `const int rowPins[9] = {34, 35, 32, 33, 25, 26, 27, 13, 4};` -/
def rowPins : List Nat := [34, 35, 32, 33, 25, 26, 27, 13, 4]

/-- `const uint8_t columnSignals[8]`: the eight one-hot column patterns, in
source order `0b00000001 .. 0b10000000`. -/
def columnSignals : List Nat := [1, 2, 4, 8, 16, 32, 64, 128]

/-- `const unsigned long printInterval = 1000;` -/
def printInterval : Nat := 1000

/-! ### Pin-event model of the shift-register driver -/

/-- One `digitalWrite(pin, level)` performed by the driver. -/
inductive PinEvent where
  | write (pin : Nat) (level : Bool)
deriving DecidableEq, Repr

/-- Arduino `shiftOut(datapin, clockpin, LSBFIRST, v)`: for bit index
`i = 0..7`, write bit `i` of `v` to the data pin, then pulse the clock pin
high and low. -/
def shiftOutEvents (v : Nat) : List PinEvent :=
  (List.range 8).flatMap fun i =>
    [PinEvent.write datapin (v.testBit i),
     PinEvent.write clockpin true,
     PinEvent.write clockpin false]

/-- `clearAllColumns()`: latch low, shift out `0b00000000`, latch high. -/
def clearAllColumnsEvents : List PinEvent :=
  PinEvent.write latchpin false :: (shiftOutEvents 0 ++ [PinEvent.write latchpin true])

/-- `activateColumn(colValue)`: latch low, shift out `colValue`, latch high. -/
def activateColumnEvents (colValue : Nat) : List PinEvent :=
  PinEvent.write latchpin false :: (shiftOutEvents colValue ++ [PinEvent.write latchpin true])

/-- The levels written to the serial-data pin, in transmission order. -/
def dataBits (evs : List PinEvent) : List Bool :=
  evs.filterMap fun e =>
    match e with
    | PinEvent.write p b => if p = datapin then some b else none

/-! ### Call-level trace of the scan phase of `loop` -/

/-- One driver/sampler call made by `loop`'s scan phase:
`activateColumn`, `delayMicroseconds`, `matrix[col][row] = digitalRead(rowPins[row])`,
or `clearAllColumns`. -/
inductive Call where
  | activate (v : Nat)
  | settle (us : Nat)
  | readRow (col row : Nat)
  | clear
deriving DecidableEq, Repr

/-- The call trace of one full sweep, translated from `loop`:
for `col = 0..7`: `activateColumn(columnSignals[col])`,
`delayMicroseconds(30)`, then `matrix[col][row] = digitalRead(rowPins[row])`
for `row = 0..8`; finally one `clearAllColumns()`. -/
def sweepCalls : List Call :=
  ((List.range 8).flatMap fun col =>
    Call.activate (columnSignals.getD col 0) ::
    Call.settle 30 ::
    (List.range 9).map fun row => Call.readRow col row)
  ++ [Call.clear]

/-- The trace of `n` consecutive sweeps of `loop`'s scan phase. -/
def sweepsTrace : Nat → List Call
  | 0 => []
  | n + 1 => sweepCalls ++ sweepsTrace n

/-- The byte latched on the shift register's parallel outputs after a list
of calls, starting from latched value `v`: `activateColumn p` latches `p`,
`clearAllColumns` latches `0`, nothing else changes the outputs. -/
def latchedAfter (calls : List Call) (v : Nat) : Nat :=
  calls.foldl (fun acc c =>
    match c with
    | Call.activate p => p
    | Call.clear => 0
    | _ => acc) v

/-- The scanner's state: the currently latched column byte and the
`matrix[col][row]` table (HIGH = `true`). -/
structure ScanState where
  latched : Nat
  matrix : Nat → Nat → Bool

/-- `matrix[c][r] = b`, leaving every other cell unchanged. -/
def matrixUpdate (m : Nat → Nat → Bool) (c r : Nat) (b : Bool) : Nat → Nat → Bool :=
  fun c' r' => if c' = c ∧ r' = r then b else m c' r'

/-- Interpret one call against an environment `env` giving the level
`digitalRead(pin)` returns while a given byte is latched on the column
outputs. -/
def scanStep (env : Nat → Nat → Bool) (s : ScanState) : Call → ScanState
  | Call.activate v => { s with latched := v }
  | Call.clear => { s with latched := 0 }
  | Call.settle _ => s
  | Call.readRow c r =>
      { s with matrix := matrixUpdate s.matrix c r (env s.latched (rowPins.getD r 0)) }

/-- Run a call trace from a scanner state. -/
def runScan (env : Nat → Nat → Bool) (s : ScanState) (calls : List Call) : ScanState :=
  calls.foldl (scanStep env) s

/-- The `(col, row)` pairs sampled by a trace, in order. -/
def readPairs (calls : List Call) : List (Nat × Nat) :=
  calls.filterMap fun c =>
    match c with
    | Call.readRow col row => some (col, row)
    | _ => none

/-- The patterns passed to `activateColumn` by a trace, in order. -/
def activateValues (calls : List Call) : List Nat :=
  calls.filterMap fun c =>
    match c with
    | Call.activate v => some v
    | _ => none

def isReadCall : Call → Bool
  | Call.readRow _ _ => true
  | _ => false

def isActivateCall : Call → Bool
  | Call.activate _ => true
  | _ => false

def isClearCall : Call → Bool
  | Call.clear => true
  | _ => false

/-- Modelled from the spec: the physical key matrix behind `digitalRead`
(the repository contains no model of the hardware). Per spec section 4.3, a
row pin is biased low by its internal pull-down and reads HIGH exactly
while a closed contact connects it to a currently energized column line:
`digitalRead(pin)` is `true` iff some closed contact `(c, r)` has bit `c`
set in the latched byte and `rowPins[r] = pin`. -/
def contactEnv (contacts : List (Nat × Nat)) (latched pin : Nat) : Bool :=
  contacts.any fun cr => latched.testBit cr.1 && (rowPins.getD cr.2 0 == pin)

/-! ### The settle-delay discipline -/

/-- State of the settle-discipline checker: the pattern of the most recent
activation (if any since the last clear), and whether a 30 microsecond
settle delay has elapsed since that activation. -/
structure SettleState where
  active : Option Nat
  settled : Bool
deriving DecidableEq, Repr

/-- One checker step: a read of row `r` in column `c` is legal only when
the most recent activation latched exactly `columnSignals[c]` and the
30 microsecond settle delay has already occurred after it; `none` is a
violation. -/
def settleStep (s : SettleState) : Call → Option SettleState
  | Call.activate v => some ⟨some v, false⟩
  | Call.settle us => some ⟨s.active, s.settled || (us == 30)⟩
  | Call.clear => some ⟨none, false⟩
  | Call.readRow c _ =>
      if s.active = some (columnSignals.getD c 0) ∧ s.settled then some s else none

/-- Run the settle-discipline checker over a trace; `none` once any read
violates the discipline. -/
def settleRun (calls : List Call) (s : Option SettleState) : Option SettleState :=
  calls.foldl (fun acc c => acc.bind fun st => settleStep st c) s

/-- Whether every row read in the trace is preceded (after its column's
activation and with no intervening activation or clear) by the settle
delay. The initial state has no column active and no settle elapsed. -/
def settleOk (calls : List Call) : Bool :=
  (settleRun calls (some ⟨none, false⟩)).isSome

def isSettleCall : Call → Bool
  | Call.settle _ => true
  | _ => false

/-- The separation discipline the mutual-exclusion claim asserts of the
call trace: any two activations (with no sweep boundary between them —
a single `sweepCalls` trace is one sweep, so it contains none) have an
intervening `clearAllColumns`. -/
def activationsSeparatedByClear (t : List Call) : Prop :=
  ∀ i, i < t.length → ∀ j, j < t.length →
    (i < j ∧ isActivateCall (t.getD i Call.clear) = true ∧
      isActivateCall (t.getD j Call.clear) = true) →
    ∃ k, k < j ∧ i < k ∧ t.getD k Call.clear = Call.clear

/-! ### One whole `loop` iteration, report gate included -/

/-- `unsigned long` (32-bit on the ESP32) subtraction `a - b`. -/
def usub32 (a b : Nat) : Nat :=
  (a % 2 ^ 32 + (2 ^ 32 - b % 2 ^ 32)) % 2 ^ 32

/-- The report gate `millis() - lastPrintTime >= printInterval`. -/
def printGate (now last : Nat) : Prop :=
  printInterval ≤ usub32 now last

instance (now last : Nat) : Decidable (printGate now last) := by
  unfold printGate; infer_instance

/-- Render one matrix cell the way `Serial.print(matrix[col][row])` does. -/
def cellDigit (b : Bool) : String :=
  if b then "1" else "0"

/-- The lines printed by the reporting branch: header, column-index header,
nine row lines (row outer, column inner), separator. -/
def printMatrix (m : Nat → Nat → Bool) : List String :=
  ["Matrix (Rows Vertically, Cols Horizontally):",
   "     " ++ String.join ((List.range 8).map fun col => "C" ++ toString col ++ " ")]
  ++ ((List.range 9).map fun row =>
      "R" ++ toString row ++ ":  " ++
        String.join ((List.range 8).map fun col => " " ++ cellDigit (m col row) ++ " "))
  ++ ["------------------------"]

/-- The state `loop` carries across iterations: the global `matrix` table
and `lastPrintTime`. -/
structure SysState where
  matrix : Nat → Nat → Bool
  lastPrintTime : Nat

/-- One iteration of `loop`: run the sweep (the latched byte is `0` at
entry, `setup` and every previous sweep end with `clearAllColumns`), then,
if `millis() - lastPrintTime >= printInterval`, set `lastPrintTime` to the
second `millis()` reading and print the matrix. `millis1` and `millis2`
are the values returned by the two `millis()` calls. -/
def loopIter (env : Nat → Nat → Bool) (millis1 millis2 : Nat) (s : SysState) :
    SysState × List String :=
  let scanned := (runScan env ⟨0, s.matrix⟩ sweepCalls).matrix
  if printGate millis1 s.lastPrintTime then
    (⟨scanned, millis2⟩, printMatrix scanned)
  else
    (⟨scanned, s.lastPrintTime⟩, [])

/-! ### Theorems -/

/-- C1: a full sweep samples all 72 (column,row) pairs exactly once, in
column-major order (columns 0..7 outer, rows 0..8 inner), and writes each
sampled boolean into `matrix[col][row]`: after the sweep, cell `(c, r)`
holds the level `digitalRead(rowPins[r])` returned while `columnSignals[c]`
was latched. -/
theorem sweep_coverage_column_major (env : Nat → Nat → Bool) (m0 : Nat → Nat → Bool) :
    readPairs sweepCalls =
      (List.range 8).flatMap (fun c => (List.range 9).map fun r => (c, r)) ∧
    (∀ c, c < 8 → ∀ r, r < 9 → (readPairs sweepCalls).count (c, r) = 1) ∧
    ∀ c, c < 8 → ∀ r, r < 9 →
      (runScan env ⟨0, m0⟩ sweepCalls).matrix c r =
        env (columnSignals.getD c 0) (rowPins.getD r 0) := by
  refine ⟨by decide, by decide, ?_⟩
  intro c hc r hr
  interval_cases c <;> interval_cases r <;> rfl

/-- Witness for C1 at column 3, row 5, with an environment that reads HIGH
exactly on pin 26 while byte 8 (= `columnSignals[3]`) is latched. -/
theorem sweep_coverage_column_major_witness :
    (runScan (fun p pin => (p == 8) && (pin == 26)) ⟨0, fun _ _ => false⟩
        sweepCalls).matrix 3 5 = true :=
  ((sweep_coverage_column_major (fun p pin => (p == 8) && (pin == 26))
      (fun _ _ => false)).2.2 3 (by decide) 5 (by decide)).trans (by decide)

/-- C2: for every column index `c < 8`, `columnSignals[c]` has exactly one
bit set, at bit position `c` (i.e. it equals `2 ^ c`), and the patterns
transmitted during a sweep are exactly these eight fixed values in
ascending column-index order. -/
theorem columnSignals_one_hot :
    (∀ c, c < 8 → columnSignals.getD c 0 = 2 ^ c ∧
      ∀ i : Nat, ((columnSignals.getD c 0).testBit i = true ↔ i = c)) ∧
    activateValues sweepCalls = (List.range 8).map fun c => 2 ^ c := by
  refine ⟨?_, by decide⟩
  intro c hc
  have h1 : columnSignals.getD c 0 = 2 ^ c := by interval_cases c <;> rfl
  refine ⟨h1, fun i => ?_⟩
  rw [h1, Nat.testBit_two_pow]
  simp [eq_comm]

/-- Witness for C2 at column 3. -/
theorem columnSignals_one_hot_witness :
    columnSignals.getD 3 0 = 2 ^ 3 ∧ (columnSignals.getD 3 0).testBit 3 = true :=
  ⟨(columnSignals_one_hot.1 3 (by decide)).1,
   ((columnSignals_one_hot.1 3 (by decide)).2 3).mpr rfl⟩

/-- C3: with exactly one contact closed, connecting column 3 to row 5,
after a sweep from the all-false snapshot `matrix[3][5]` is `true` and the
other 71 cells are `false`. -/
theorem single_contact_snapshot :
    (runScan (contactEnv [(3, 5)]) ⟨0, fun _ _ => false⟩ sweepCalls).matrix 3 5 = true ∧
    ∀ c, c < 8 → ∀ r, r < 9 → ¬(c = 3 ∧ r = 5) →
      (runScan (contactEnv [(3, 5)]) ⟨0, fun _ _ => false⟩ sweepCalls).matrix c r = false := by
  decide

/-- Witness for C3's bounded quantifiers at cell (0, 0). -/
theorem single_contact_snapshot_witness :
    (runScan (contactEnv [(3, 5)]) ⟨0, fun _ _ => false⟩ sweepCalls).matrix 0 0 = false :=
  single_contact_snapshot.2 0 (by decide) 0 (by decide) (by decide)

/-- C5: both driver operations lower the latch-enable line first, raise it
last, and transmit the 8-bit pattern least-significant-bit-first on the
data pin in between; `clearAllColumns` is exactly `activateColumn` of the
all-zero byte. -/
theorem driver_protocol (v : Nat) (_hv : v < 256) :
    (activateColumnEvents v).head? = some (PinEvent.write latchpin false) ∧
    (activateColumnEvents v).getLast? = some (PinEvent.write latchpin true) ∧
    dataBits (activateColumnEvents v) = (List.range 8).map v.testBit ∧
    clearAllColumnsEvents = activateColumnEvents 0 ∧
    dataBits clearAllColumnsEvents = List.replicate 8 false :=
  ⟨rfl, rfl, rfl, rfl, by decide⟩

/-- Witness for C5 at `v = 8` (column 3's pattern): the transmitted bits
are LSB-first, so bit 3 is the fourth bit sent. -/
theorem driver_protocol_witness :
    dataBits (activateColumnEvents 8) =
      [false, false, false, true, false, false, false, false] :=
  (driver_protocol 8 (by decide)).2.2.1.trans (by decide)

/-- C6: one sweep calls `clearAllColumns` exactly once, as its last call,
after all eight `activateColumn` calls, and the latched byte at the end of
a sweep is 0 whatever it was at the start — no column is energized between
sweeps. -/
theorem clear_once_per_sweep :
    (sweepCalls.filter isClearCall).length = 1 ∧
    sweepCalls.getLast? = some Call.clear ∧
    (sweepCalls.filter isActivateCall).length = 8 ∧
    ∀ v : Nat, latchedAfter sweepCalls v = 0 :=
  ⟨by decide, by decide, by decide, fun _ => rfl⟩

/-- Folding the latch semantics over an appended trace. -/
theorem latchedAfter_append (a b : List Call) (v : Nat) :
    latchedAfter (a ++ b) v = latchedAfter b (latchedAfter a v) :=
  List.foldl_append _ _ a b

set_option maxRecDepth 4000 in
/-- C4 counterexample: within one sweep the eight `activateColumn` calls
follow one another with no intervening `clearAllColumns` — e.g. the
activations at trace positions 0 and 11 of `sweepCalls` (one sweep, hence
no sweep boundary between them) have no clear anywhere between them. -/
theorem activations_not_separated_by_clear :
    ¬ activationsSeparatedByClear sweepCalls ∧
    sweepCalls.getD 0 Call.clear = Call.activate 1 ∧
    sweepCalls.getD 11 Call.clear = Call.activate 2 ∧
    ∀ k, k < 11 → 0 < k → sweepCalls.getD k Call.clear ≠ Call.clear := by
  refine ⟨?_, by decide, by decide, by decide⟩
  unfold activationsSeparatedByClear
  decide

/-- C4 amended: at every sampling instant of every run of `n` sweeps the
latched column byte is one-hot, so at most one column output is high; and
the single `clearAllColumns` of a sweep fully precedes the next sweep's
first `activateColumn` (positions 77, 88, 89 of a two-sweep trace), with
no activation between the last activation of a sweep and that clear.
Consecutive activations within a sweep have no intervening clear: each
`activateColumn` directly replaces the previously latched one-hot
pattern. -/
theorem mutual_exclusion_amended :
    (∀ n : Nat, ∀ i, i < (sweepsTrace n).length →
        isReadCall ((sweepsTrace n).getD i Call.clear) = true →
        ∃ c, c < 8 ∧ latchedAfter ((sweepsTrace n).take i) 0 = 2 ^ c) ∧
    (sweepsTrace 2).getD 77 Call.clear = Call.activate 128 ∧
    (sweepsTrace 2).getD 88 Call.clear = Call.clear ∧
    (sweepsTrace 2).getD 89 Call.clear = Call.activate 1 ∧
    (∀ k, k < 89 → 77 < k → isActivateCall ((sweepsTrace 2).getD k Call.clear) = false) := by
  have base : ∀ i, i < sweepCalls.length →
      isReadCall (sweepCalls.getD i Call.clear) = true →
      ∃ c, c < 8 ∧ latchedAfter (sweepCalls.take i) 0 = 2 ^ c := by decide
  refine ⟨?_, by decide, by decide, by decide, by decide⟩
  intro n
  induction n with
  | zero =>
    intro i hi
    simp [sweepsTrace] at hi
  | succ n ih =>
    intro i hi hread
    have hs : sweepsTrace (n + 1) = sweepCalls ++ sweepsTrace n := rfl
    rw [hs] at hi hread ⊢
    rcases Nat.lt_or_ge i sweepCalls.length with h | h
    · have ht : (sweepCalls ++ sweepsTrace n).take i = sweepCalls.take i := by
        rw [List.take_append_eq_append_take, Nat.sub_eq_zero_of_le (Nat.le_of_lt h),
          List.take_zero, List.append_nil]
      rw [List.getD_append _ _ _ _ h] at hread
      rw [ht]
      exact base i h hread
    · have ht : (sweepCalls ++ sweepsTrace n).take i
          = sweepCalls ++ (sweepsTrace n).take (i - sweepCalls.length) := by
        rw [List.take_append_eq_append_take, List.take_of_length_le h]
      have hi' : i - sweepCalls.length < (sweepsTrace n).length := by
        rw [List.length_append] at hi
        omega
      rw [List.getD_append_right _ _ _ _ h] at hread
      rw [ht, latchedAfter_append]
      have h0 : latchedAfter sweepCalls 0 = 0 := rfl
      rw [h0]
      exact ih (i - sweepCalls.length) hi' hread

/-- Witness for C4 (amended): the first sampling instant of a one-sweep
trace (position 2) sees a one-hot latched byte. -/
theorem mutual_exclusion_amended_witness :
    ∃ c, c < 8 ∧ latchedAfter ((sweepsTrace 1).take 2) 0 = 2 ^ c :=
  mutual_exclusion_amended.1 1 2 (by decide) (by decide)

/-- Composition of the settle checker over appended traces. -/
theorem settleRun_append (a b : List Call) (s : Option SettleState) :
    settleRun (a ++ b) s = settleRun b (settleRun a s) :=
  List.foldl_append _ _ a b

/-- C8: every settle call the scan issues is the fixed 30-microsecond
delay, there is one per column iteration (eight per sweep), and over any
number of sweeps every row read happens only after the 30-microsecond
settle delay that follows its column's activation (with no intervening
activation or clear); so no row read for a column ever precedes that
column's settle delay. -/
theorem settle_before_sample :
    sweepCalls.filter isSettleCall = List.replicate 8 (Call.settle 30) ∧
    ∀ n : Nat, settleOk (sweepsTrace n) = true := by
  refine ⟨by decide, ?_⟩
  intro n
  induction n with
  | zero => rfl
  | succ n ih =>
    show (settleRun (sweepCalls ++ sweepsTrace n) (some ⟨none, false⟩)).isSome = true
    rw [settleRun_append]
    have h0 : settleRun sweepCalls (some ⟨none, false⟩) = some ⟨none, false⟩ := rfl
    rw [h0]
    exact ih

/-- Subtracting a recorded `unsigned long` timestamp from a later clock
reading recovers the true elapsed time while both fit in 32 bits. -/
theorem usub32_eq_sub (a b : Nat) (hba : b ≤ a) (ha : a < 2 ^ 32) :
    usub32 a b = a - b := by
  have hM : (2 : Nat) ^ 32 = 4294967296 := by norm_num
  unfold usub32
  rw [hM] at *
  omega

/-- C7: with a monotone clock (the recorded last-report time is not after
the current reading, both in `unsigned long` range), one `loop` iteration
prints iff at least `printInterval = 1000` ms elapsed since the recorded
time — however many sweeps ran in between, since the gate reads only the
clock and `lastPrintTime` — and printing sets `lastPrintTime` to the
current clock value, while a gated iteration leaves it unchanged. -/
theorem reporter_cadence (env : Nat → Nat → Bool) (s : SysState) (t : Nat)
    (hlt : s.lastPrintTime ≤ t) (htw : t < 2 ^ 32) :
    ((loopIter env t t s).2 ≠ [] ↔ 1000 ≤ t - s.lastPrintTime) ∧
    (1000 ≤ t - s.lastPrintTime → (loopIter env t t s).1.lastPrintTime = t) ∧
    (t - s.lastPrintTime < 1000 → (loopIter env t t s).1.lastPrintTime = s.lastPrintTime) := by
  have hgate : printGate t s.lastPrintTime ↔ 1000 ≤ t - s.lastPrintTime := by
    unfold printGate printInterval
    rw [usub32_eq_sub t s.lastPrintTime hlt htw]
  by_cases hg : printGate t s.lastPrintTime
  · refine ⟨?_, fun _ => by simp [loopIter, if_pos hg], fun hsmall => absurd (hgate.mp hg) (by omega)⟩
    simp only [loopIter, if_pos hg]
    simp [printMatrix, hgate.mp hg]
  · refine ⟨?_, fun hbig => absurd (hgate.mpr hbig) hg, fun _ => by simp [loopIter, if_neg hg]⟩
    simp only [loopIter, if_neg hg]
    simpa using fun hbig => hg (hgate.mpr hbig)

/-- Witness for C7: at clock 1500 with last report recorded at 200, the
iteration prints. -/
theorem reporter_cadence_witness :
    (loopIter (fun _ _ => false) 1500 1500 ⟨fun _ _ => false, 200⟩).2 ≠ [] :=
  (reporter_cadence (fun _ _ => false) ⟨fun _ _ => false, 200⟩ 1500
      (by norm_num) (by norm_num)).1.mpr (by norm_num)

/-- C9: the gate computes elapsed time by unsigned 32-bit modular
subtraction, so for an ideal unbounded clock read at `t1` (stored) and
later at `t2` with true elapsed time under 2^32, the stored and current
32-bit readings yield exactly `t2 - t1`, and the ≥ 1000 comparison agrees
with the true elapsed time even across a wrap of the 32-bit counter. -/
theorem gate_modular_wraparound (t1 t2 : Nat) (h12 : t1 ≤ t2) (hw : t2 - t1 < 2 ^ 32) :
    usub32 (t2 % 2 ^ 32) (t1 % 2 ^ 32) = t2 - t1 ∧
    (printGate (t2 % 2 ^ 32) (t1 % 2 ^ 32) ↔ 1000 ≤ t2 - t1) := by
  have hM : (2 : Nat) ^ 32 = 4294967296 := by norm_num
  have h1 : usub32 (t2 % 2 ^ 32) (t1 % 2 ^ 32) = t2 - t1 := by
    unfold usub32
    rw [hM] at *
    omega
  refine ⟨h1, ?_⟩
  unfold printGate printInterval
  rw [h1]

/-- Witness for C9 across a wrap: the 32-bit clock has wrapped between
`t1 = 2^32 - 500` and `t2 = 2^32 + 600`, yet the gate sees the true
elapsed 1100 ms. -/
theorem gate_modular_wraparound_witness :
    usub32 ((2 ^ 32 + 600) % 2 ^ 32) ((2 ^ 32 - 500) % 2 ^ 32) = 1100 :=
  ((gate_modular_wraparound (2 ^ 32 - 500) (2 ^ 32 + 600)
      (by norm_num) (by norm_num)).1).trans (by norm_num)

/-- C10: the reporting branch never writes the snapshot — two runs of one
`loop` iteration with the same row-pin environment and the same incoming
matrix, but any clock readings and any recorded report times, leave
identical matrix contents. -/
theorem report_never_writes_snapshot (env : Nat → Nat → Bool)
    (s1 s2 : SysState) (a1 b1 a2 b2 : Nat) (h : s1.matrix = s2.matrix) :
    (loopIter env a1 b1 s1).1.matrix = (loopIter env a2 b2 s2).1.matrix := by
  simp only [loopIter, h]
  split <;> split <;> rfl

/-- Witness for C10: same initial matrix, clock readings 0 versus 5000
(the latter prints, the former does not), identical scan results. -/
theorem report_never_writes_snapshot_witness :
    (loopIter (fun _ _ => true) 0 0 ⟨fun _ _ => false, 400⟩).1.matrix =
      (loopIter (fun _ _ => true) 5000 5000 ⟨fun _ _ => false, 400⟩).1.matrix :=
  report_never_writes_snapshot (fun _ _ => true)
    ⟨fun _ _ => false, 400⟩ ⟨fun _ _ => false, 400⟩ 0 0 5000 5000 rfl

end EspKeyboard
